import Mathlib

/-!
Verification of the asset-conversion entry point (`openage/convert/main.py`):
the mount-resolution service (`mount_asset_dirs`, `mount_input`) and the
incremental-invalidation engine (`conversion_required`), together with the
force bypass in `main`, embedded shallowly.

External collaborators (the fslike `Union` tree primitive, the DRS archive
adapter, the `changelog` module and the `version_detect` module) are not part
of the source under verification; they are modelled abstractly: the virtual
mount tree as the ordered list of mount actions performed on it, the
changelog as a record of its constants, and the detected game version as
explicit data.
-/

/-- Log levels of the `openage.log` module as used by `main.py`:
`warn`, `info` and `dbg` calls, each carrying the formatted message. -/
inductive LogMsg where
  | warn (msg : String)
  | info (msg : String)
  | dbg (msg : String)
deriving DecidableEq

/-- `true` exactly on warn-level messages. -/
def LogMsg.isWarn : LogMsg → Bool
  | .warn _ => true
  | _ => false

/-- What a source-relative path resolves to on the source tree:
a directory (`path_to_media.is_dir()`), a plain file
(`path_to_media.is_file()`), or nothing at all. -/
inductive FileKind where
  | dir
  | file
  | missing
deriving DecidableEq

/-- The read-only source tree rooted at the installation directory,
modelled by its resolution behaviour: how each source-relative path
string classifies (`is_dir` / `is_file` / neither). -/
structure SourceTree where
  classify : String → FileKind

/-- Support classification of an edition or expansion
(`version_detect.Support`): supported, unsupported, or breaks the game. -/
inductive Support where
  | yes
  | nope
  | breaks
deriving DecidableEq

/-- A detected game edition (`version_detect.GameEdition` member): display
name, support classification and its media path table — for each media
category value (a target-path string), the ordered list of declared
source-relative paths. -/
structure Edition where
  edition_name : String
  support : Support
  media_paths : List (String × List String)
deriving DecidableEq

/-- A detected game expansion: same shape as an `Edition`. -/
structure Expansion where
  expansion_name : String
  support : Support
  media_paths : List (String × List String)
deriving DecidableEq

/-- The pair returned by the detection interface: `game_version[0]` is the
primary edition, `game_version[1]` the ordered list of active expansions. -/
structure GameVersion where
  edition : Edition
  expansions : List Expansion
deriving DecidableEq

/-- One mount operation performed on the virtual union tree, in order:
the root alias of the whole source tree (`result.mount(srcdir)`), a
directory alias (`result[target].mount(path_to_media)`), or a DRS archive
mount (`mount_drs(filename, target)`). The union-tree shadowing semantics
are the external primitive's; here the tree is its ordered mount list. -/
inductive MountAction where
  | root
  | dirMount (target : String) (path : String)
  | drsMount (target : String) (path : String)
deriving DecidableEq

/-- Index of the last `.` in a character list, if any. -/
def lastDotIdx : List Char → Option Nat
  | [] => none
  | c :: rest =>
    match lastDotIdx rest with
    | some i => some (i + 1)
    | none => if c = '.' then some 0 else none

/-- Characters of the final component of a `/`-separated path string. -/
def finalComponent (cs : List Char) : List Char :=
  cs.foldl (fun acc c => if c = '/' then [] else acc ++ [c]) []

/-- Modelled from the spec: the source-tree path interface (§6) exposes the
file extension via `path_to_media.suffix` (the fslike path module is not
under `src/`); modelled with pathlib `suffix` semantics — the extension of
the final path component, empty for hidden files and trailing dots. -/
def pySuffix (p : String) : String :=
  let name := finalComponent p.data
  match lastDotIdx name with
  | some i => if 0 < i ∧ i < name.length - 1 then String.mk (name.drop i) else ""
  | none => ""

/-- `str.lower()`, modelled characterwise with `Char.toLower` (the media
suffixes compared here are ASCII). -/
def pyLower (s : String) : String :=
  String.mk (s.data.map Char.toLower)

/-- One iteration of the inner loop of `mount_asset_dirs`: resolve the
declared `path` against the source tree; a directory is aliased at the
category target, a `.drs` file (extension compared lower-cased) is mounted
through the archive adapter, any other file is skipped with no action and
no diagnostic, and a path resolving to neither raises
`Exception("Media at path %s could not be found")`. -/
def mountEntry (src : SourceTree) (acc : List MountAction) (target path : String) :
    Except String (List MountAction) :=
  match src.classify path with
  | .dir => .ok (acc ++ [.dirMount target path])
  | .file =>
    if pyLower (pySuffix path) = ".drs" then .ok (acc ++ [.drsMount target path])
    else .ok acc
  | .missing => .error ("Media at path " ++ path ++ " could not be found")

/-- Run `mountEntry` over a list of (category target, declared path)
entries in order, stopping at the first raised error. -/
def mountList (src : SourceTree) : List MountAction → List (String × String) →
    Except String (List MountAction)
  | acc, [] => .ok acc
  | acc, (t, p) :: rest =>
    match mountEntry src acc t p with
    | .ok acc2 => mountList src acc2 rest
    | .error e => .error e

/-- Flatten a media path table into (category target, declared path)
entries: categories in table order, each category's paths in declaration
order (`media_paths.items()` iterates in insertion order). -/
def mediaEntries (mp : List (String × List String)) : List (String × String) :=
  mp.flatMap (fun tp => tp.2.map (fun p => (tp.1, p)))

/-- Run the expansion loop of `mount_asset_dirs`: each active expansion in
activation order, its media entries in declared order. -/
def mountExpansions (src : SourceTree) : List MountAction → List Expansion →
    Except String (List MountAction)
  | acc, [] => .ok acc
  | acc, e :: rest =>
    match mountList src acc (mediaEntries e.media_paths) with
    | .ok acc2 => mountExpansions src acc2 rest
    | .error err => .error err

/-- `mount_asset_dirs(srcdir, game_version)`: alias the whole source tree
at the root of the union, then mount the media sources of the game edition
and of each expansion; returns the built tree or propagates the first
resolution error. -/
def mount_asset_dirs (src : SourceTree) (gv : GameVersion) :
    Except String (List MountAction) :=
  match mountList src [MountAction.root] (mediaEntries gv.edition.media_paths) with
  | .ok acc => mountExpansions src acc gv.expansions
  | .error e => .error e

/-- All (category target, declared path) entries of a detected game
version in processing order: the primary edition's first, then each
expansion's in activation order. -/
def declaredEntries (gv : GameVersion) : List (String × String) :=
  mediaEntries gv.edition.media_paths ++
    gv.expansions.flatMap (fun e => mediaEntries e.media_paths)

example : pySuffix "Data/graphics.DRS" = ".DRS" := by rfl
example : pyLower (pySuffix "Data/graphics.DRS") = ".drs" := by rfl
example : pySuffix "readme.txt" = ".txt" := by rfl
example : pySuffix "Sounds" = "" := by rfl
example : pySuffix ".hidden" = "" := by rfl
example : pySuffix "a/b.tar.gz" = ".gz" := by rfl

example :
    mount_asset_dirs
      ⟨fun p => if p = "Data/graphics.drs" then .file
                else if p = "Sounds" then .dir
                else if p = "readme.txt" then .file
                else .missing⟩
      ⟨⟨"AOC", Support.yes,
        [("graphics", ["Data/graphics.drs", "readme.txt"]), ("sounds", ["Sounds"])]⟩, []⟩
    = .ok [MountAction.root, .drsMount "graphics" "Data/graphics.drs",
           .dirMount "sounds" "Sounds"] := by rfl

/-- `str.strip()` on marker file contents, modelled characterwise: drop
leading and trailing whitespace. -/
def pyStrip (s : String) : String :=
  String.mk (((s.data.dropWhile Char.isWhitespace).reverse.dropWhile
    Char.isWhitespace).reverse)

/-- Decimal digit run parser: `none` on an empty run or a non-digit. -/
def pyParseDigits : List Char → Option Nat
  | [] => none
  | cs =>
    cs.foldl
      (fun acc c =>
        match acc with
        | none => none
        | some n => if c.isDigit then some (n * 10 + (c.toNat - 48)) else none)
      (some 0)

/-- Python `int(str)` on an already-stripped string: optional sign then
decimal digits, `none` (`ValueError`) otherwise (underscore digit
grouping and non-ASCII digits are not modelled). -/
def pyInt? (s : String) : Option Int :=
  match s.data with
  | '-' :: rest => (pyParseDigits rest).map (fun n => -(n : Int))
  | '+' :: rest => (pyParseDigits rest).map (fun n => (n : Int))
  | cs => (pyParseDigits cs).map (fun n => (n : Int))

/-- The converted-output directory as `conversion_required` uses it: the
contents of the two version marker files (`none` when opening raises
`FileNotFoundError`) and the result of the writable-path probe
`asset_dir.resolve_native_path_w()` (`none` when falsy). -/
structure AssetDir where
  version_file : Option String
  spec_file : Option String
  native_path_w : Option String

/-- The first stanza of `conversion_required`: determine the version of
assets.  Missing file: version `-1` and `info("No converted assets have
been found")`; present but non-integer after stripping: version `-1` and
`info("Converted asset version has improper format; ...")`; otherwise the
parsed integer. -/
def read_asset_version (file? : Option String) : Int × List LogMsg :=
  match file? with
  | none => (-1, [LogMsg.info "No converted assets have been found"])
  | some content =>
    match pyInt? (pyStrip content) with
    | some n => (n, [])
    | none =>
      (-1, [LogMsg.info
        "Converted asset version has improper format; expected integer number"])

/-- The second stanza of `conversion_required`: determine the version of
the gamespec format.  Missing file: `None` and `info("Game specification
version file not found.")`; otherwise the stripped contents. -/
def read_spec_version (file? : Option String) : Option String × List LogMsg :=
  match file? with
  | none => (none, [LogMsg.info "Game specification version file not found."])
  | some content => (some (pyStrip content), [])

/-- The conversion request: the mutable `args` namespace viewed through
its boolean attributes (`getattr(args, name, False)` defaults to
`False`). -/
structure ConvArgs where
  attrs : String → Bool

/-- `setattr(args, name, True)`. -/
def ConvArgs.setattr (a : ConvArgs) (name : String) : ConvArgs :=
  ⟨fun x => if x = name then true else a.attrs x⟩

/-- A fresh conversion request with every flag unset. -/
def defaultArgs : ConvArgs := ⟨fun _ => false⟩

/-- The `changelog` module as consumed by `main.py`: the component
universe `COMPONENTS`, the current asset version constant
`ASSET_VERSION`, and the change-set query `changes(asset_version,
spec_version)`. Its implementation is not under `src/`, so it is kept
abstract here and instantiated from the spec for concrete runs. -/
structure Changelog where
  COMPONENTS : List String
  ASSET_VERSION : Int
  changes : Int → Option String → List String

/-- Insert into an ascending list of strings (helper for `sortStrings`). -/
def insertSorted (s : String) : List String → List String
  | [] => [s]
  | t :: ts => if s ≤ t then s :: t :: ts else t :: insertSorted s ts

/-- `sorted(...)` on strings for the "Converting" log line. -/
def sortStrings (l : List String) : List String :=
  l.foldr insertSorted []

/-- `conversion_required(asset_dir, args)`: read the two version markers,
query the changelog for the change set; an empty change set reports "up to
date" and returns `False` untouched; otherwise resolve the writable output
path (raising `OSError` when none resolves), then set `no_<component>` for
every component not in the change set, force `no_pickle_cache` when
`"metadata"` is in the change set, and return `True`.  The result is the
final `args` state, the emitted log messages, and the returned value or
raised error. -/
def conversion_required (cl : Changelog) (ad : AssetDir) (args : ConvArgs) :
    ConvArgs × List LogMsg × Except String Bool :=
  let av := read_asset_version ad.version_file
  let sv := read_spec_version ad.spec_file
  let asset_version := av.1
  let spec_version := sv.1
  let changes := cl.changes asset_version spec_version
  if changes.isEmpty then
    (args, av.2 ++ sv.2 ++ [LogMsg.dbg "Converted assets are up to date"], .ok false)
  else
    let logsMismatch :=
      if asset_version ≥ 0 ∧ asset_version ≠ cl.ASSET_VERSION then
        [LogMsg.info ("Found converted assets with version " ++
          toString asset_version ++ ", but need version " ++
          toString cl.ASSET_VERSION)]
      else []
    let logsConverting :=
      [LogMsg.info ("Converting " ++ String.intercalate ", " (sortStrings changes))]
    match ad.native_path_w with
    | none =>
      (args, av.2 ++ sv.2 ++ logsMismatch ++ logsConverting,
        .error "could not resolve a writable asset path in asset_dir")
    | some target_path =>
      let logsSave := [LogMsg.info ("Will save to " ++ target_path)]
      let args1 := cl.COMPONENTS.foldl
        (fun a component =>
          if component ∈ changes then a
          else ConvArgs.setattr a ("no_" ++ component))
        args
      let args2 :=
        if "metadata" ∈ changes then ConvArgs.setattr args1 "no_pickle_cache"
        else args1
      (args2, av.2 ++ sv.2 ++ logsMismatch ++ logsConverting ++ logsSave, .ok true)

/-- The branch of `main` that decides whether conversion runs:
`if args.force or conversion_required(outdir, args)` — Python `or`
short-circuits, so with `force` set `conversion_required` is never
invoked and conversion proceeds with `args` untouched. -/
def main_convert_decision (force : Bool) (cl : Changelog) (outdir : AssetDir)
    (args : ConvArgs) : ConvArgs × List LogMsg × Except String Bool :=
  if force then (args, [], .ok true)
  else conversion_required cl outdir args

/-- Modelled from the spec: the `changelog` module is not under `src/`.
Components are the six CLI-skippable component tags of
`init_subparser`; the change table follows the §8 scenario (steps above
version 2 affect graphics, steps above 3 affect graphics and metadata;
current version 5), and per §4.2 a mismatched or unset game-spec marker
implies the metadata component. -/
def specChangelog : Changelog where
  COMPONENTS := ["media", "metadata", "sounds", "graphics", "interface", "scripts"]
  ASSET_VERSION := 5
  changes := fun asset_version spec_version =>
    let fromTable :=
      ([((3 : Int), ["graphics"]), (4, ["graphics", "metadata"])].filter
        (fun e => asset_version < e.1)).flatMap (fun e => e.2)
    let fromSpec := if spec_version = some "TOKEN5" then [] else ["metadata"]
    fromTable ++ fromSpec

example : specChangelog.changes 5 (some "TOKEN5") = [] := by rfl
example : specChangelog.changes 3 (some "TOKEN5") = ["graphics", "metadata"] := by rfl
example : specChangelog.changes 5 none = ["metadata"] := by rfl
example : read_asset_version (some " 5\n") = (5, []) := by rfl
example : read_asset_version (some "banana") =
    (-1, [LogMsg.info
      "Converted asset version has improper format; expected integer number"]) := by rfl
example : read_asset_version (some "-7") = (-7, []) := by rfl
example : read_spec_version none =
    (none, [LogMsg.info "Game specification version file not found."]) := by rfl

theorem mountList_append (src : SourceTree) (l1 l2 : List (String × String)) :
    ∀ acc, mountList src acc (l1 ++ l2) =
      match mountList src acc l1 with
      | .ok a => mountList src a l2
      | .error e => .error e := by
  induction l1 with
  | nil => intro acc; rfl
  | cons hd tl ih =>
    intro acc
    obtain ⟨t, p⟩ := hd
    simp only [List.cons_append, mountList]
    cases mountEntry src acc t p with
    | ok acc2 => exact ih acc2
    | error e => rfl

theorem mountExpansions_eq_mountList (src : SourceTree) (es : List Expansion) :
    ∀ acc, mountExpansions src acc es =
      mountList src acc (es.flatMap (fun e => mediaEntries e.media_paths)) := by
  induction es with
  | nil => intro acc; rfl
  | cons e rest ih =>
    intro acc
    simp only [mountExpansions, List.flatMap_cons, mountList_append]
    cases mountList src acc (mediaEntries e.media_paths) with
    | ok acc2 => exact ih acc2
    | error err => rfl

theorem mount_asset_dirs_eq_mountList (src : SourceTree) (gv : GameVersion) :
    mount_asset_dirs src gv =
      mountList src [MountAction.root] (declaredEntries gv) := by
  simp only [mount_asset_dirs, declaredEntries, mountList_append]
  cases mountList src [MountAction.root] (mediaEntries gv.edition.media_paths) with
  | ok acc => exact mountExpansions_eq_mountList src gv.expansions acc
  | error e => rfl

theorem mountList_error_of_find (src : SourceTree) (l : List (String × String))
    (tp0 : String × String)
    (h : l.find? (fun tp => decide (src.classify tp.2 = FileKind.missing)) = some tp0) :
    ∀ acc, mountList src acc l =
      .error ("Media at path " ++ tp0.2 ++ " could not be found") := by
  induction l with
  | nil => simp at h
  | cons hd tl ih =>
    intro acc
    obtain ⟨t, p⟩ := hd
    by_cases hm : src.classify p = FileKind.missing
    · have : tp0 = (t, p) := by
        rw [List.find?_cons_of_pos] at h
        · exact (Option.some_inj.mp h).symm
        · simpa using hm
      subst this
      simp only [mountList, mountEntry, hm]
    · rw [List.find?_cons_of_neg] at h
      · simp only [mountList, mountEntry]
        cases hc : src.classify p with
        | dir => exact ih h _
        | file =>
          by_cases hd : pyLower (pySuffix p) = ".drs" <;> simp [hd] <;> exact ih h _
        | missing => exact absurd hc hm
      · simpa using hm

/-- C1: a declared media path that resolves to neither a file nor a
directory makes `mount_asset_dirs` raise immediately, the error naming
the first such path in processing order; no tree is returned. -/
theorem mount_asset_dirs_fails_on_missing (src : SourceTree) (gv : GameVersion)
    (tp0 : String × String)
    (h : (declaredEntries gv).find?
      (fun tp => decide (src.classify tp.2 = FileKind.missing)) = some tp0) :
    mount_asset_dirs src gv =
      .error ("Media at path " ++ tp0.2 ++ " could not be found")
    ∧ ∀ tree, mount_asset_dirs src gv ≠ .ok tree := by
  have he := mountList_error_of_find src (declaredEntries gv) tp0 h [MountAction.root]
  rw [mount_asset_dirs_eq_mountList, he]
  exact ⟨rfl, fun tree hc => by simp at hc⟩

/-- Concrete run of `mount_asset_dirs_fails_on_missing`: the second
declared graphics path is absent from the source tree, mounting raises
the resolution error naming it, and the valid third entry is never
reached. -/
theorem mount_asset_dirs_fails_on_missing_witness :
    mount_asset_dirs
      ⟨fun p => if p = "Data/graphics.drs" then .file
                else if p = "Sounds" then .dir else .missing⟩
      ⟨⟨"AOC", Support.yes,
        [("graphics", ["Data/graphics.drs", "Data/gone.drs"]), ("sounds", ["Sounds"])]⟩, []⟩
      = .error "Media at path Data/gone.drs could not be found" :=
  (mount_asset_dirs_fails_on_missing
    ⟨fun p => if p = "Data/graphics.drs" then .file
              else if p = "Sounds" then .dir else .missing⟩
    ⟨⟨"AOC", Support.yes,
      [("graphics", ["Data/graphics.drs", "Data/gone.drs"]), ("sounds", ["Sounds"])]⟩, []⟩
    ("graphics", "Data/gone.drs") (by rfl)).1

/-- C6: a declared media path resolving to a file whose lower-cased
extension is not `.drs` performs no mount and raises nothing — the
accumulated tree is returned unchanged (the function emits no log
messages at all) and processing continues with the remaining entries
exactly as if the entry were not there. -/
theorem mount_skips_unrecognized_file (src : SourceTree) (acc : List MountAction)
    (t p : String) (rest : List (String × String))
    (hf : src.classify p = FileKind.file)
    (hext : pyLower (pySuffix p) ≠ ".drs") :
    mountEntry src acc t p = .ok acc
    ∧ mountList src acc ((t, p) :: rest) = mountList src acc rest := by
  have h1 : mountEntry src acc t p = .ok acc := by
    simp [mountEntry, hf, hext]
  exact ⟨h1, by simp [mountList, h1]⟩

/-- Concrete run of `mount_skips_unrecognized_file`: a `readme.txt`
listed among the graphics sources is skipped and the following sounds
directory is still mounted. -/
theorem mount_skips_unrecognized_file_witness :
    mountEntry ⟨fun p => if p = "readme.txt" then .file else .dir⟩
      [MountAction.root] "graphics" "readme.txt" = .ok [MountAction.root]
    ∧ mountList ⟨fun p => if p = "readme.txt" then .file else .dir⟩
        [MountAction.root] [("graphics", "readme.txt"), ("sounds", "Sounds")]
      = mountList ⟨fun p => if p = "readme.txt" then .file else .dir⟩
        [MountAction.root] [("sounds", "Sounds")] :=
  mount_skips_unrecognized_file
    ⟨fun p => if p = "readme.txt" then .file else .dir⟩
    [MountAction.root] "graphics" "readme.txt" [("sounds", "Sounds")]
    (by rfl) (by decide)

/-- One spec-side mount decision (§4.1 step 2): a directory is aliased, a
packed container is opened and aliased, anything else adds nothing. -/
def planStep (src : SourceTree) (acc : List MountAction) (tp : String × String) :
    List MountAction :=
  match src.classify tp.2 with
  | .dir => acc ++ [.dirMount tp.1 tp.2]
  | .file =>
    if pyLower (pySuffix tp.2) = ".drs" then acc ++ [.drsMount tp.1 tp.2] else acc
  | .missing => acc

/-- Follows the spec's words (§4.1): the virtual mount tree starts with
the whole source tree aliased at the root, then every declared entry is
processed strictly in (edition, expansions-in-order,
paths-in-declared-order) order. -/
def specMountPlan (src : SourceTree) (gv : GameVersion) : List MountAction :=
  MountAction.root :: (declaredEntries gv).foldl (planStep src) []

theorem mountList_ok_of_no_missing (src : SourceTree) (l : List (String × String))
    (h : ∀ tp ∈ l, src.classify tp.2 ≠ FileKind.missing) :
    ∀ acc, mountList src acc l = .ok (l.foldl (planStep src) acc) := by
  induction l with
  | nil => intro acc; rfl
  | cons hd tl ih =>
    intro acc
    obtain ⟨t, p⟩ := hd
    have hp : src.classify p ≠ FileKind.missing := h (t, p) (by simp)
    have htl : ∀ tp ∈ tl, src.classify tp.2 ≠ FileKind.missing :=
      fun tp htp => h tp (by simp [htp])
    simp only [mountList, mountEntry, List.foldl_cons]
    cases hc : src.classify p with
    | dir => simpa [planStep, hc] using ih htl _
    | file =>
      by_cases hdrs : pyLower (pySuffix p) = ".drs" <;>
        simpa [planStep, hc, hdrs] using ih htl _
    | missing => exact absurd hc hp

theorem foldl_planStep_append (src : SourceTree) (l : List (String × String)) :
    ∀ a b : List MountAction,
      l.foldl (planStep src) (a ++ b) = a ++ l.foldl (planStep src) b := by
  induction l with
  | nil => intro a b; rfl
  | cons hd tl ih =>
    intro a b
    have hstep : planStep src (a ++ b) hd = a ++ planStep src b hd := by
      unfold planStep
      cases src.classify hd.2 with
      | dir => simp
      | file => by_cases hdrs : pyLower (pySuffix hd.2) = ".drs" <;> simp [hdrs]
      | missing => rfl
    simp only [List.foldl_cons, hstep, ih]

/-- C7: with every declared path resolvable, `mount_asset_dirs` succeeds
and performs exactly the mounts of the spec-side plan: the source-tree
root alias first, then the edition's entries, then each expansion's in
activation order, each category's paths in declaration order. -/
theorem mount_asset_dirs_ordered (src : SourceTree) (gv : GameVersion)
    (h : ∀ tp ∈ declaredEntries gv, src.classify tp.2 ≠ FileKind.missing) :
    mount_asset_dirs src gv = .ok (specMountPlan src gv)
    ∧ (specMountPlan src gv).head? = some MountAction.root := by
  constructor
  · rw [mount_asset_dirs_eq_mountList,
      mountList_ok_of_no_missing src (declaredEntries gv) h]
    have : [MountAction.root] = [MountAction.root] ++ ([] : List MountAction) := rfl
    rw [this, foldl_planStep_append]
    rfl
  · rfl

/-- Concrete run of `mount_asset_dirs_ordered`: an edition and one
expansion, interface paths declared before graphics; the resulting tree
is the root alias followed by the mounts in exactly the declared order,
the expansion's after the edition's. -/
theorem mount_asset_dirs_ordered_witness :
    mount_asset_dirs
      ⟨fun p => if p = "interfac.drs" then .file else .dir⟩
      ⟨⟨"AOK", Support.yes, [("interface", ["interfac.drs"]), ("graphics", ["Gfx"])]⟩,
        [⟨"TC", Support.yes, [("sounds", ["Sound"])]⟩]⟩
      = .ok [MountAction.root, .drsMount "interface" "interfac.drs",
             .dirMount "graphics" "Gfx", .dirMount "sounds" "Sound"] :=
  (mount_asset_dirs_ordered
    ⟨fun p => if p = "interfac.drs" then .file else .dir⟩
    ⟨⟨"AOK", Support.yes, [("interface", ["interfac.drs"]), ("graphics", ["Gfx"])]⟩,
      [⟨"TC", Support.yes, [("sounds", ["Sound"])]⟩]⟩
    (by decide)).1

theorem no_prefix_inj {c c' : String} (h : "no_" ++ c = "no_" ++ c') : c = c' := by
  have h2 : ("no_" ++ c).data = ("no_" ++ c').data := congrArg String.data h
  rw [String.data_append, String.data_append] at h2
  exact String.ext (List.append_cancel_left h2)

theorem setflags_attrs (changes : List String) (comps : List String) :
    ∀ (args : ConvArgs) (name : String),
      (comps.foldl
        (fun a component =>
          if component ∈ changes then a
          else ConvArgs.setattr a ("no_" ++ component))
        args).attrs name
      = (args.attrs name ||
          comps.any (fun component =>
            decide (component ∉ changes) && decide (name = "no_" ++ component))) := by
  induction comps with
  | nil => intro args name; simp
  | cons c cs ih =>
    intro args name
    simp only [List.foldl_cons, List.any_cons]
    by_cases hc : c ∈ changes
    · simp [hc, ih]
    · rw [ih]
      by_cases hn : name = "no_" ++ c
      · simp [ConvArgs.setattr, hn, hc]
      · simp [ConvArgs.setattr, hn, hc, Bool.or_assoc]

/-- C2: `conversion_required` mutates the request only when it returns
`True`.  With an empty change set it returns `False` with `args`
untouched and never looks at the writable-path probe (the result is the
same whatever the probe would yield); with a non-empty change set and a
failed probe it raises the `OSError` with `args` still untouched. -/
theorem conversion_required_mutation_discipline (cl : Changelog) (ad : AssetDir)
    (args : ConvArgs) :
    ((cl.changes (read_asset_version ad.version_file).1
        (read_spec_version ad.spec_file).1).isEmpty = true →
      ∀ w, (conversion_required cl ⟨ad.version_file, ad.spec_file, w⟩ args).1 = args
        ∧ (conversion_required cl ⟨ad.version_file, ad.spec_file, w⟩ args).2.2
            = .ok false)
  ∧ ((cl.changes (read_asset_version ad.version_file).1
        (read_spec_version ad.spec_file).1).isEmpty = false →
      ad.native_path_w = none →
      (conversion_required cl ad args).1 = args
      ∧ (conversion_required cl ad args).2.2
          = .error "could not resolve a writable asset path in asset_dir") := by
  constructor
  · intro h w
    constructor <;> simp [conversion_required, h]
  · intro h hw
    constructor <;> simp [conversion_required, h, hw]

/-- Concrete runs of `conversion_required_mutation_discipline`: an
up-to-date asset dir (version 5, matching spec token) returns `False`,
and a stale one (version 3) with no writable path raises with the
default request unchanged. -/
theorem conversion_required_mutation_discipline_witness :
    (conversion_required specChangelog ⟨some "5", some "TOKEN5", none⟩
        defaultArgs).2.2 = .ok false
    ∧ (conversion_required specChangelog ⟨some "3", some "TOKEN5", none⟩
        defaultArgs).1 = defaultArgs :=
  ⟨((conversion_required_mutation_discipline specChangelog
      ⟨some "5", some "TOKEN5", none⟩ defaultArgs).1 (by rfl) none).2,
   ((conversion_required_mutation_discipline specChangelog
      ⟨some "3", some "TOKEN5", none⟩ defaultArgs).2 (by rfl) rfl).1⟩

theorem setflags_attrs_inverts (changes comps : List String) (c : String)
    (hc : c ∈ comps) :
    (comps.foldl
      (fun a component =>
        if component ∈ changes then a
        else ConvArgs.setattr a ("no_" ++ component))
      defaultArgs).attrs ("no_" ++ c) = true
    ↔ c ∉ changes := by
  rw [setflags_attrs]
  simp only [defaultArgs, Bool.false_or, List.any_eq_true]
  constructor
  · rintro ⟨c', hc', hdec⟩
    simp only [Bool.and_eq_true, decide_eq_true_eq] at hdec
    rcases hdec with ⟨hnotin, heq⟩
    rwa [no_prefix_inj heq]
  · intro hnot
    exact ⟨c, hc, by simp [hnot]⟩

/-- C3: when conversion is required (non-empty change set, writable
path resolved), starting from the default request the skip flag
`no_<component>` ends up `True` exactly for the known components NOT in
the change set — the change set is inverted into a skip set — and the
function returns `True`.  (The hypothesis that `pickle_cache` is not
itself a component name keeps the separately-assigned
`no_pickle_cache` attribute from aliasing a component flag.) -/
theorem conversion_required_skip_inversion (cl : Changelog) (ad : AssetDir)
    (w : String) (hw : ad.native_path_w = some w)
    (hpc : "pickle_cache" ∉ cl.COMPONENTS)
    (hne : (cl.changes (read_asset_version ad.version_file).1
      (read_spec_version ad.spec_file).1).isEmpty = false)
    (c : String) (hc : c ∈ cl.COMPONENTS) :
    ((conversion_required cl ad defaultArgs).1.attrs ("no_" ++ c) = true
      ↔ c ∉ cl.changes (read_asset_version ad.version_file).1
          (read_spec_version ad.spec_file).1)
    ∧ (conversion_required cl ad defaultArgs).2.2 = .ok true := by
  have hcne : c ≠ "pickle_cache" := fun heq => hpc (heq ▸ hc)
  constructor
  · simp only [conversion_required, hne, Bool.false_eq_true, if_false, hw]
    by_cases hm : "metadata" ∈ cl.changes (read_asset_version ad.version_file).1
        (read_spec_version ad.spec_file).1
    · simp only [hm, if_true, ConvArgs.setattr]
      have : ¬ ("no_" ++ c = "no_" ++ "pickle_cache") :=
        fun heq => hcne (no_prefix_inj heq)
      simp only [show ("no_pickle_cache" : String) = "no_" ++ "pickle_cache" from rfl]
      rw [if_neg this]
      exact setflags_attrs_inverts _ _ c hc
    · simp only [hm, if_false]
      exact setflags_attrs_inverts _ _ c hc
  · simp [conversion_required, hne, hw]

/-- Concrete run of `conversion_required_skip_inversion`, the §8
scenario: stored version 3, change set {graphics, metadata}; `no_media`
is set, `no_graphics` is not. -/
theorem conversion_required_skip_inversion_witness :
    ((conversion_required specChangelog ⟨some "3", some "TOKEN5", some "/assets"⟩
        defaultArgs).1.attrs "no_media" = true
      ↔ "media" ∉ specChangelog.changes 3 (some "TOKEN5"))
    ∧ ((conversion_required specChangelog ⟨some "3", some "TOKEN5", some "/assets"⟩
        defaultArgs).1.attrs "no_graphics" = true
      ↔ "graphics" ∉ specChangelog.changes 3 (some "TOKEN5")) :=
  ⟨(conversion_required_skip_inversion specChangelog
      ⟨some "3", some "TOKEN5", some "/assets"⟩ "/assets" rfl (by decide) (by rfl)
      "media" (by decide)).1,
   (conversion_required_skip_inversion specChangelog
      ⟨some "3", some "TOKEN5", some "/assets"⟩ "/assets" rfl (by decide) (by rfl)
      "graphics" (by decide)).1⟩

/-- C4 counterexample: the claim states the produced request has the
pickle-cache-skip flag cleared; at this concrete input (stored version 3,
change set {graphics, metadata}, writable path resolved) the code sets
`args.no_pickle_cache = True`, so the skip flag ends up set, not
cleared. -/
theorem conversion_required_cache_flag_counterexample :
    (conversion_required specChangelog ⟨some "3", some "TOKEN5", some "/assets"⟩
      defaultArgs).1.attrs "no_pickle_cache" = true := by rfl

/-- C4 (amended): when the change set includes the metadata component and
a writable path resolves, the produced request has `no_pickle_cache` set
to `True` (the raw-data-reading pickle cache is disabled), whatever the
initial state of the request. -/
theorem conversion_required_metadata_disables_cache (cl : Changelog) (ad : AssetDir)
    (w : String) (hw : ad.native_path_w = some w) (args : ConvArgs)
    (hm : "metadata" ∈ cl.changes (read_asset_version ad.version_file).1
      (read_spec_version ad.spec_file).1) :
    (conversion_required cl ad args).1.attrs "no_pickle_cache" = true := by
  have hne : (cl.changes (read_asset_version ad.version_file).1
      (read_spec_version ad.spec_file).1).isEmpty = false := by
    cases hl : cl.changes (read_asset_version ad.version_file).1
        (read_spec_version ad.spec_file).1 with
    | nil => rw [hl] at hm; exact absurd hm (List.not_mem_nil _)
    | cons a l => rfl
  simp only [conversion_required, hne, Bool.false_eq_true, if_false, hw, hm, if_true]
  simp [ConvArgs.setattr]

/-- Concrete run of `conversion_required_metadata_disables_cache`, with
the initial request carrying an unrelated preset flag. -/
theorem conversion_required_metadata_disables_cache_witness :
    (conversion_required specChangelog ⟨some "3", some "TOKEN5", some "/assets"⟩
      (ConvArgs.setattr defaultArgs "no_sounds")).1.attrs "no_pickle_cache" = true :=
  conversion_required_metadata_disables_cache specChangelog
    ⟨some "3", some "TOKEN5", some "/assets"⟩ "/assets" rfl
    (ConvArgs.setattr defaultArgs "no_sounds") (by decide)

/-- C5 counterexample: the claim states a warning is emitted for
non-integer marker content; at this concrete input the code coerces the
version to -1 but the diagnostic it emits is info-level — no warn-level
message is logged. -/
theorem version_marker_no_warning_counterexample :
    (read_asset_version (some "banana")).1 = -1
    ∧ (read_asset_version (some "banana")).2.any LogMsg.isWarn = false :=
  ⟨rfl, rfl⟩

/-- C5 (amended): a missing asset-output marker or non-integer marker
content is treated as version -1, with an info-level log message (a
recoverable anomaly, not fatal), while a missing game-spec marker is
treated as unset (`none`), not as -1 — the two markers use different
unset sentinels. -/
theorem version_marker_sentinels (s : String) (h : pyInt? (pyStrip s) = none) :
    read_asset_version (some s) = (-1, [LogMsg.info
      "Converted asset version has improper format; expected integer number"])
    ∧ read_asset_version none = (-1, [LogMsg.info "No converted assets have been found"])
    ∧ read_spec_version none
      = (none, [LogMsg.info "Game specification version file not found."]) := by
  refine ⟨?_, rfl, rfl⟩
  simp [read_asset_version, h]

/-- Concrete run of `version_marker_sentinels` on marker content
`"banana"`. -/
theorem version_marker_sentinels_witness :
    read_asset_version (some "banana") = (-1, [LogMsg.info
      "Converted asset version has improper format; expected integer number"]) :=
  (version_marker_sentinels "banana" (by rfl)).1

/-- C8: with `force` set, `main` short-circuits past
`conversion_required`: the decision is `True` with the request untouched
and no log emitted, the outcome is the same whatever the changelog and
whatever the output tree's markers hold (no version marker is read), and
from a default request no skip flag whatsoever is set. -/
theorem main_force_bypass (cl cl' : Changelog) (outdir outdir' : AssetDir)
    (args : ConvArgs) :
    main_convert_decision true cl outdir args = (args, [], .ok true)
    ∧ main_convert_decision true cl outdir args
        = main_convert_decision true cl' outdir' args
    ∧ ∀ name, (main_convert_decision true cl outdir defaultArgs).1.attrs name = false :=
  ⟨rfl, rfl, fun _ => rfl⟩

/-- The outcome of `mount_input`: either the explicit "no supported
version found" signal — the returned pair `(False, set())` — or the
mounted tree together with the detected game version. -/
inductive MountInputResult where
  | noSupport
  | mounted (tree : List MountAction) (gv : GameVersion)
deriving DecidableEq

/-- `mount_input(srcdir)` for an already-acquired source directory.
`gv?` stands for the result of `get_game_info(srcdir)` (modelled from
the spec: the edition/expansion detection interface of §6 is external
to `src/`; `none` models its null/falsy result), and `allEditions` for
the `GameEdition` enumeration iterated for the "You need at least one
of" listing.  A falsy detection is warned about and then
`game_version[0].support` raises a `TypeError`; a breaking edition is
warned about and yields the explicit no-support signal; breaking
expansions are warned about but mounting still proceeds.  Returns the
emitted log messages alongside the outcome or raised error. -/
def mount_input (allEditions : List Edition) (src : SourceTree)
    (gv? : Option GameVersion) : List LogMsg × Except String MountInputResult :=
  match gv? with
  | none =>
    ([LogMsg.warn "No valid game version(s) could not be detected"],
     .error "TypeError: NoneType object is not subscriptable")
  | some gv =>
    let broken_edition := decide (gv.edition.support = Support.breaks)
    let logsBE :=
      if broken_edition then
        [LogMsg.warn "You have installed an incompatible game edition:",
         LogMsg.warn (" * " ++ gv.edition.edition_name)]
      else []
    let no_support := broken_edition
    let broken_expansions :=
      gv.expansions.filter (fun e => decide (e.support = Support.breaks))
    let logsBX :=
      if broken_expansions.isEmpty then []
      else
        LogMsg.warn "You have installed incompatible game expansions:" ::
          broken_expansions.map (fun e => LogMsg.warn (" * " ++ e.expansion_name))
    if no_support then
      (logsBE ++ logsBX ++
        (LogMsg.warn "You need at least one of:" ::
          (allEditions.filter (fun e => decide (e.support = Support.yes))).map
            (fun e => LogMsg.warn (" * " ++ e.edition_name))),
       .ok MountInputResult.noSupport)
    else
      let logsInfo :=
        LogMsg.info "Game edition detected:" ::
          LogMsg.info (" * " ++ gv.edition.edition_name) ::
          (if gv.expansions.isEmpty then []
           else
             LogMsg.info "Expansions detected:" ::
               gv.expansions.map (fun e => LogMsg.info (" * " ++ e.expansion_name)))
      match mount_asset_dirs src gv with
      | .ok tree => (logsBE ++ logsBX ++ logsInfo, .ok (.mounted tree gv))
      | .error e => (logsBE ++ logsBX ++ logsInfo, .error e)

/-- C9: a primary edition classified `breaks` makes `mount_input` warn
and return the explicit no-support signal rather than raise, while
breaking expansions alone are warned about but do not abort: mounting
proceeds and the mounted tree is returned. -/
theorem mount_input_broken_support (allE : List Edition) (src : SourceTree)
    (gv : GameVersion) :
    (gv.edition.support = Support.breaks →
      (mount_input allE src (some gv)).2 = .ok MountInputResult.noSupport
      ∧ (mount_input allE src (some gv)).1.any LogMsg.isWarn = true)
  ∧ (gv.edition.support ≠ Support.breaks →
      (∃ e ∈ gv.expansions, e.support = Support.breaks) →
      (mount_input allE src (some gv)).1.any LogMsg.isWarn = true
      ∧ ∀ tree, mount_asset_dirs src gv = .ok tree →
          (mount_input allE src (some gv)).2 = .ok (.mounted tree gv)) := by
  constructor
  · intro hb
    constructor <;> simp [mount_input, hb, LogMsg.isWarn]
  · intro hb hex
    have hbe : decide (gv.edition.support = Support.breaks) = false := by
      simpa using hb
    have hne : (gv.expansions.filter
        (fun e => decide (e.support = Support.breaks))).isEmpty = false := by
      obtain ⟨e, he, hsup⟩ := hex
      have hmem : e ∈ gv.expansions.filter
          (fun x => decide (x.support = Support.breaks)) :=
        List.mem_filter.mpr ⟨he, by simpa using hsup⟩
      cases hl : gv.expansions.filter (fun x => decide (x.support = Support.breaks)) with
      | nil => rw [hl] at hmem; exact absurd hmem (List.not_mem_nil _)
      | cons a l => rfl
    constructor
    · simp [mount_input, hbe, hne, LogMsg.isWarn]
      cases hm : mount_asset_dirs src gv <;> simp [LogMsg.isWarn]
    · intro tree hm
      simp [mount_input, hbe, hne, hm]

/-- Concrete runs of `mount_input_broken_support`: a breaking edition
produces the no-support signal; a supported edition with a breaking
expansion still mounts (warning logged in both cases). -/
theorem mount_input_broken_support_witness :
    (mount_input [] ⟨fun _ => .dir⟩
        (some ⟨⟨"HD", Support.breaks, []⟩, []⟩)).2 = .ok MountInputResult.noSupport
    ∧ (mount_input [] ⟨fun _ => .dir⟩
        (some ⟨⟨"AOC", Support.yes, []⟩, [⟨"BAD", Support.breaks, []⟩]⟩)).2
      = .ok (.mounted [MountAction.root]
          ⟨⟨"AOC", Support.yes, []⟩, [⟨"BAD", Support.breaks, []⟩]⟩) :=
  ⟨((mount_input_broken_support [] ⟨fun _ => .dir⟩
      ⟨⟨"HD", Support.breaks, []⟩, []⟩).1 rfl).1,
   ((mount_input_broken_support [] ⟨fun _ => .dir⟩
      ⟨⟨"AOC", Support.yes, []⟩, [⟨"BAD", Support.breaks, []⟩]⟩).2 (by decide)
      ⟨⟨"BAD", Support.breaks, []⟩, by decide⟩).2 [MountAction.root] (by rfl)⟩

/-- C10: when the detection function returns a null result,
`mount_input` emits the warning but does not return early: it subscripts
the null result and raises, never producing the no-support signal. -/
theorem mount_input_no_detection_raises (allE : List Edition) (src : SourceTree) :
    mount_input allE src none
      = ([LogMsg.warn "No valid game version(s) could not be detected"],
         .error "TypeError: NoneType object is not subscriptable")
    ∧ ∀ r, (mount_input allE src none).2 ≠ .ok r :=
  ⟨rfl, fun r h => by simp [mount_input] at h⟩
